import Mathlib

/-!
Verification of the FX thresholding dashboard (`fx_full_threshold_dashboard.py`)
against its natural-language specification.

The source program is a single-file pandas/streamlit pipeline.  We embed the
algorithmic content shallowly:

* observations are records `(date, ccy, logRet, volOHLC)` with integer day
  numbers for dates and rationals for the numeric columns; a null `LogReturn`
  is `Option.none`;
* float results that involve square roots (standard deviations, annualized
  volatilities, z-scores, quantiles of volatilities) live in `ℝ`; purely
  rational intermediate quantities (variances, moments, thresholds, rates)
  live in `ℚ` so that concrete instances can be settled by `decide`;
* pandas `NaN` propagation is modelled with `Option`: a missing/NaN cell is
  `none`, and a `>` comparison against a `none` cell is `False`, exactly as a
  float comparison against NaN evaluates to `False` in the source.

Each analysis tab of the source is embedded by definitions named after the
variables the source uses (`MANUAL_BANDS`, `find_group_and_thresh`, `rates`,
and so on).
-/

/-! ## Basic statistics on rational lists (pandas/NumPy semantics) -/

/-- Arithmetic mean of a list of rationals (`Series.mean` on clean data).
For the empty list this yields `0/0 = 0`; the pipeline never consumes that
value. -/
def meanQ (l : List ℚ) : ℚ := l.sum / l.length

/-- Sample variance with `ddof = 1`, the default of `Series.std` and of
`rolling(...).std()` in the source: `Σ (x - mean)² / (n - 1)`. -/
def sampleVarQ (l : List ℚ) : ℚ :=
  (l.map fun x => (x - meanQ l) ^ 2).sum / ((l.length : ℚ) - 1)

/-- Central moment of order `k` with the biased `1/n` normalization used by
`scipy.stats.skew` and `scipy.stats.kurtosis` with their default `bias=True`. -/
def centralMomentQ (k : ℕ) (l : List ℚ) : ℚ :=
  (l.map fun x => (x - meanQ l) ^ k).sum / (l.length : ℚ)

/-- Turns a list of optional values into `some` list exactly when every entry
is present; any `none` (a NaN cell) poisons the whole window, matching a
rolling aggregation whose window contains a NaN. -/
def seqOption : List (Option ℚ) → Option (List ℚ)
  | [] => some []
  | none :: _ => none
  | some x :: xs => (seqOption xs).map (x :: ·)

/-! ## Data model: the uploaded FX table -/

/-- One row of the FX csv: `Date, Currency, LogReturn, VolatilityOHLC`.
Dates are day numbers (`pd.Timedelta(days=7)` becomes the integer 7);
`LogReturn` may be null. -/
structure Obs where
  date : ℤ
  ccy : String
  logRet : Option ℚ
  volOHLC : ℚ

deriving instance DecidableEq, Repr for Obs

/-- Latest date of the table, `df["Date"].max()`. -/
def maxDate (obs : List Obs) : ℤ := (obs.map Obs.date).foldr max 0

/-- Source line 33: `cutoff = df["Date"].max() - pd.Timedelta(days=7)`. -/
def cutoffDate (obs : List Obs) : ℤ := maxDate obs - 7

/-- Source lines 53/69/95/115: `df_hist = df[df["Date"] <= cutoff]`. -/
def histObs (obs : List Obs) : List Obs :=
  obs.filter fun o => o.date ≤ cutoffDate obs

/-- Source line 34: `currencies = df["Currency"].unique().tolist()` — distinct
currencies in order of first appearance. -/
def currencies (obs : List Obs) : List String := (obs.map Obs.ccy).dedup

/-- Currencies that have at least one row in the historical window; these are
the group keys of every `df_hist.groupby("Currency")`. -/
def histCcys (obs : List Obs) : List String := ((histObs obs).map Obs.ccy).dedup

/-- Per-currency `LogReturn` column of the FULL table, in row order. -/
def returnsAll (obs : List Obs) (c : String) : List (Option ℚ) :=
  (obs.filter fun o => o.ccy = c).map Obs.logRet

/-- Per-currency `LogReturn` column of the historical window
(`df_hist.groupby("Currency")["LogReturn"]`). -/
def histReturns (obs : List Obs) (c : String) : List (Option ℚ) :=
  ((histObs obs).filter fun o => o.ccy = c).map Obs.logRet

/-- Per-currency `VolatilityOHLC` column of the historical window. -/
def histOhlc (obs : List Obs) (c : String) : List ℚ :=
  ((histObs obs).filter fun o => o.ccy = c).map Obs.volOHLC

/-! ## Manual bands (source lines 15-20 and 72-75) -/

/-- One manual volatility band: group number, inclusive lower bound, exclusive
upper bound (`none` stands for `np.inf`), and the deviation threshold the band
maps to.  The scanned value `AvgAnnVol` is a float, so the bounds live in `ℝ`;
the produced threshold is the exact constant of the table and stays in `ℚ`. -/
structure Band where
  group : ℕ
  lo : ℝ
  hi : Option ℝ
  thr : ℚ

/-- Source lines 15-20: the fixed `MANUAL_BANDS` table, in the dict's
insertion order 1,2,3,4. -/
noncomputable def MANUAL_BANDS : List Band :=
  [⟨1, 0, some 0.07, 0.07⟩, ⟨2, 0.07, some 0.50, 0.50⟩,
   ⟨3, 0.50, some 0.60, 0.60⟩, ⟨4, 0.60, none, 0.70⟩]

/-- The guard `lo <= v < hi` of source line 74; a `none` upper bound is
`np.inf`, which every float is below. -/
noncomputable def bandMatch (v : ℝ) (b : Band) : Bool :=
  decide (b.lo ≤ v) && (match b.hi with | none => true | some h => decide (v < h))

/-- Source lines 72-75: scan the bands in order and return the first match as
`(group, threshold)`; if no band matches, fall back to
`return 4, MANUAL_BANDS[4][2]`. -/
noncomputable def find_group_and_thresh (v : ℝ) : ℕ × ℚ :=
  match MANUAL_BANDS.find? (bandMatch v) with
  | some b => (b.group, b.thr)
  | none => (4, (0.70 : ℚ))

/-! ## Rolling volatility (source lines 13-14 and 54-57) -/

/-- Source line 13: `ROLL_WINDOW = 60`. -/
def ROLL_WINDOW : ℕ := 60

/-- Source line 14: `ANNUALIZE = np.sqrt(252)`. -/
noncomputable def ANNUALIZE : ℝ := Real.sqrt 252

/-- Trailing window of `rolling(60)` ending at position `i`: the entries at
positions `i-59 .. i`, available (`some`) exactly when `59 ≤ i` and every cell
in the window is non-null — `rolling(W).std()` keeps its default
`min_periods = W`, so a NaN anywhere in the window makes the result NaN. -/
def rollWindow (xs : List (Option ℚ)) (i : ℕ) : Option (List ℚ) :=
  if 59 ≤ i then seqOption ((xs.take (i + 1)).drop (i - 59)) else none

/-- Annualized volatility of one full window: the sample standard deviation
multiplied by `ANNUALIZE` (source lines 54-57: `.rolling(60).std()` then
`tmp["RollVol"] *= ANNUALIZE`). -/
noncomputable def annVol (w : List ℚ) : ℝ :=
  Real.sqrt ((sampleVarQ w : ℚ) : ℝ) * ANNUALIZE

/-- The per-currency `RollVol` column: one entry per observation, `none` where
pandas leaves NaN. -/
noncomputable def rollVolList (xs : List (Option ℚ)) : List (Option ℝ) :=
  (List.range xs.length).map fun i => (rollWindow xs i).map annVol

/-- The non-NaN entries of a column, in order — what `dropna()` keeps and what
aggregations such as `quantile`, `mean` and `std` operate on. -/
def definedVals {α : Type} (xs : List (Option α)) : List α := xs.filterMap id

/-! ## Linear-interpolation quantile (source lines 58-59 and 83-84) -/

/-- Entry of a sorted sample at clamped index `i`: out-of-range indices read
the last element, which keeps the interpolation formula total. -/
def nthClamped (v : List ℝ) (i : ℕ) : ℝ := v.getD (min i (v.length - 1)) 0

/-- Linear interpolation of a sorted sample at fractional position `h`
(`numpy` / pandas `interpolation='linear'`): with `j = ⌊h⌋` and `γ = h - j`,
the value is `v[j] + γ * (v[j+1] - v[j])`. -/
noncomputable def interpAt (v : List ℝ) (h : ℚ) : ℝ :=
  nthClamped v ⌊h⌋₊ +
    ((h - (⌊h⌋₊ : ℚ) : ℚ) : ℝ) * (nthClamped v (⌊h⌋₊ + 1) - nthClamped v ⌊h⌋₊)

/-- Ascending sort of the non-NaN sample, as pandas sorts before
interpolating. -/
noncomputable def sortR (xs : List ℝ) : List ℝ :=
  List.insertionSort (· ≤ ·) xs

/-- Pandas `Series.quantile(p)`: NaN (`none`) on an empty (all-NaN) sample,
else linear interpolation between order statistics at position
`(n - 1) * p`. -/
noncomputable def pandasQuantile (xs : List ℝ) (p : ℚ) : Option ℝ :=
  if xs.isEmpty then none
  else some (interpAt (sortR xs) (((xs.length - 1 : ℕ) : ℚ) * p))

/-- Pointwise order on optional threshold values: two NaN results compare as
equal, a NaN never compares against a number. -/
def optionLE : Option ℝ → Option ℝ → Prop
  | none, none => True
  | some a, some b => a ≤ b
  | _, _ => False

/-! ## Tab 1: statistical threshold summary (source lines 52-65) -/

/-- The historical rolling-volatility column of one currency (source lines
53-57: `df_hist` grouped by currency, `rolling(60).std()`, annualized). -/
noncomputable def tab1RollVol (obs : List Obs) (c : String) : List (Option ℝ) :=
  rollVolList (histReturns obs c)

/-- Source lines 58-59: the p-th percentile of the historical rolling-vol
distribution (`quantile` drops NaN). `p` is in percent, e.g. `95`. -/
noncomputable def tab1Thresh (obs : List Obs) (c : String) (p : ℚ) : Option ℝ :=
  pandasQuantile (definedVals (tab1RollVol obs c)) (p / 100)

/-- Source lines 60-62: `x.sort_values("Date")["RollVol"].iloc[-1]` — the
rolling-vol entry at the last HISTORICAL date, which may itself be NaN. -/
noncomputable def tab1LatestVol (obs : List Obs) (c : String) : Option ℝ :=
  ((tab1RollVol obs c).getLast?).join

/-- Source line 64: `summary["Flag"] = summary["LatestVol"] > summary[thresh]`;
a float comparison against NaN is `False`. -/
noncomputable def tab1Flag (obs : List Obs) (c : String) (p : ℚ) : Prop :=
  match tab1LatestVol obs c, tab1Thresh obs c p with
  | some v, some t => t < v
  | _, _ => False

/-- Modelled from the spec: "the most recent (latest-date) rolling-volatility
value from the FULL series (including post-cutoff dates)". This definition
follows the spec's words; claim C1 compares it with the code's
`tab1LatestVol`, which is computed from the historical window only. -/
noncomputable def specFullSeriesLatestVol (obs : List Obs) (c : String) : Option ℝ :=
  ((rollVolList (returnsAll obs c)).getLast?).join

/-! ## Tab 2: manual vs statistical thresholds (source lines 67-91) -/

/-- Source lines 70-71: mean OHLC volatility over the historical window,
annualized. -/
noncomputable def avgAnnVol (obs : List Obs) (c : String) : ℝ :=
  ((meanQ (histOhlc obs c) : ℚ) : ℝ) * ANNUALIZE

/-- Manual threshold of a currency: second component of the band scan applied
to `AvgAnnVol` (source lines 76-78). -/
noncomputable def manualThreshold (obs : List Obs) (c : String) : ℚ :=
  (find_group_and_thresh (avgAnnVol obs c)).2

/-- Manual group of a currency (source lines 76-78). -/
noncomputable def manualGroup (obs : List Obs) (c : String) : ℕ :=
  (find_group_and_thresh (avgAnnVol obs c)).1

/-- Source lines 83-84: the fixed 95th percentile of historical rolling
volatility (`quantile(0.95)`). -/
noncomputable def tab2StatThresh (obs : List Obs) (c : String) : Option ℝ :=
  pandasQuantile (definedVals (rollVolList (histReturns obs c))) (95 / 100)

/-- Source lines 85-87: `CurrentVol`, the rolling-vol entry at the last
historical date (same computation as tab 1's `LatestVol`). -/
noncomputable def tab2CurrentVol (obs : List Obs) (c : String) : Option ℝ :=
  ((rollVolList (histReturns obs c)).getLast?).join

/-- Source line 89: `base["Flag_Manual"] = base["CurrentVol"] > base["ManualThreshold"]`. -/
noncomputable def tab2FlagManual (obs : List Obs) (c : String) : Prop :=
  match tab2CurrentVol obs c with
  | some v => ((manualThreshold obs c : ℚ) : ℝ) < v
  | none => False

/-- Source line 90: `base["Flag_Statistical"] = base["CurrentVol"] > base["StatisticalThreshold"]`. -/
noncomputable def tab2FlagStat (obs : List Obs) (c : String) : Prop :=
  match tab2CurrentVol obs c, tab2StatThresh obs c with
  | some v, some t => t < v
  | _, _ => False

/-! ## Tab 3: GARCH forecast (source lines 93-111) -/

/-- One row of `garch_out`. `flagG` is `Flag_GARCH = cvol > f * 1.5`. -/
structure GarchRow where
  ccy : String
  forecast : ℝ
  currentVol : ℝ
  flagG : Prop

/-- Source lines 104-105: the last defined entry of the FULL-series rolling
volatility, `rolling(60).std().dropna().iloc[-1] * ANNUALIZE`; `none` when
`dropna()` leaves nothing (then `iloc[-1]` raises and the `except` skips the
currency). -/
noncomputable def lastFullVol (obs : List Obs) (c : String) : Option ℝ :=
  (definedVals (rollVolList (returnsAll obs c))).getLast?

/-- Loop body of source lines 97-109, with the GARCH(1,1) fit abstracted:
`fitF` maps the cleaned historical return series to `some` annualized
one-step forecast, or `none` when `arch_model(...).fit` fails to converge or
raises — the `except` branch.  A currency whose cleaned series has fewer than
100 entries is skipped by the `continue`; a currency whose fit or
`CurrentVol` computation fails is skipped by the bare `except`. -/
noncomputable def garchRowFor (fitF : List ℚ → Option ℝ) (obs : List Obs)
    (c : String) : Option GarchRow :=
  if (definedVals (histReturns obs c)).length < 100 then none
  else
    match fitF (definedVals (histReturns obs c)), lastFullVol obs c with
    | some f, some cv => some ⟨c, f, cv, f * 1.5 < cv⟩
    | _, _ => none

/-- Source lines 96-110: the collected `garch_out` rows, one attempt per
currency of the upload, in `currencies` order. -/
noncomputable def garch_out (fitF : List ℚ → Option ℝ) (obs : List Obs) :
    List GarchRow :=
  (currencies obs).filterMap (garchRowFor fitF obs)

/-! ## Tab 4: ML anomaly detection (source lines 113-125) -/

/-- The three-feature vector `(Vol, Skew, Kurt)` of one currency. -/
structure FeatVec where
  vol : ℝ
  skw : ℝ
  kur : ℝ

/-- Source lines 116-119: the aggregated feature row of one currency, `none`
when `.dropna()` removes it.  `Vol = x.std() * ANNUALIZE` needs at least two
non-null returns; `scipy.stats.skew`/`kurtosis` are NaN when the series holds
a null (they do not skip NaN) or when the second central moment is zero. -/
noncomputable def featRow (rs : List (Option ℚ)) : Option FeatVec :=
  if (rs.all Option.isSome) ∧ 2 ≤ (definedVals rs).length ∧
      centralMomentQ 2 (definedVals rs) ≠ 0 then
    some ⟨Real.sqrt ((sampleVarQ (definedVals rs) : ℚ) : ℝ) * ANNUALIZE,
      ((centralMomentQ 3 (definedVals rs) : ℚ) : ℝ) /
        Real.sqrt ((centralMomentQ 2 (definedVals rs) : ℚ) : ℝ) ^ 3,
      ((centralMomentQ 4 (definedVals rs) / centralMomentQ 2 (definedVals rs) ^ 2
        - 3 : ℚ) : ℝ)⟩
  else none

/-- Source lines 116-119: the feature table `feat`, one row per historical
currency that survives `dropna()`. -/
noncomputable def featTable (obs : List Obs) : List (String × FeatVec) :=
  (histCcys obs).filterMap fun c => (featRow (histReturns obs c)).map ((c, ·))

/-- Modelled from the spec: an sklearn-style estimator draws its seed from the
passed `random_state` when one is given and from the ambient global RNG state
otherwise.  The source passes `random_state=42`. -/
def effectiveSeed (randomState : Option ℕ) (ambient : ℕ) : ℕ :=
  randomState.getD ambient

/-- Source lines 120-124 with the two fitted estimators abstracted: `ifFit`
is the isolation-forest scorer (a function of its seed and the fitted table),
`svmFit` the one-class SVM scorer (a function of `nu` and the fitted table);
both then predict on the same table.  `ambient` is the global RNG state a
seedless run would consume; `IsolationForest(random_state=42)` pins the seed
to 42.  When fewer than two feature rows exist the flags are not computed
(`none`). -/
noncomputable def runAnomaly (ifFit : ℕ → List FeatVec → FeatVec → Bool)
    (svmFit : ℚ → List FeatVec → FeatVec → Bool) (ambient : ℕ)
    (obs : List Obs) : Option (List (String × Bool × Bool)) :=
  let ft := featTable obs
  if 2 ≤ ft.length then
    some (ft.map fun cv =>
      (cv.1, ifFit (effectiveSeed (some 42) ambient) (ft.map Prod.snd) cv.2,
        svmFit (0.1 : ℚ) (ft.map Prod.snd) cv.2))
  else none

/-! ## Tab 5: regime detection (source lines 127-135) -/

/-- Mean of a list of reals (`Series.mean` over the non-NaN entries). -/
noncomputable def meanR (l : List ℝ) : ℝ := l.sum / l.length

/-- Pandas `Series.std()` over the non-NaN entries: sample standard deviation
with `ddof = 1`, NaN (`none`) when fewer than two entries exist. -/
noncomputable def stdR (l : List ℝ) : Option ℝ :=
  if l.length < 2 then none
  else some (Real.sqrt ((l.map fun x => (x - meanR l) ^ 2).sum / ((l.length : ℝ) - 1)))

/-- Source lines 131-132: `ZScore = (x - x.mean()) / x.std()` applied to a
whole rolling-vol column.  `mean`/`std` skip NaN cells; a NaN cell stays NaN.
When the standard deviation is NaN (fewer than two defined entries) or zero
(all defined entries equal, so each numerator is zero and `0.0/0.0` is NaN)
every z-score is NaN. -/
noncomputable def zSeries (xs : List (Option ℝ)) : List (Option ℝ) :=
  match stdR (definedVals xs) with
  | none => xs.map fun _ => none
  | some s =>
    if s = 0 then xs.map fun _ => none
    else xs.map (Option.map fun v => (v - meanR (definedVals xs)) / s)

/-- Source line 133: `lz = df.groupby("Currency")["ZScore"].last()` — the last
non-null z-score of the currency's FULL (not historical) rolling-vol series. -/
noncomputable def lzZScore (obs : List Obs) (c : String) : Option ℝ :=
  (definedVals (zSeries (rollVolList (returnsAll obs c)))).getLast?

/-- Source line 134: `Flag_Regime = lz["ZScore"].abs() > 2`; NaN compares
`False`. -/
noncomputable def regimeFlag (obs : List Obs) (c : String) : Prop :=
  match lzZScore obs c with
  | some z => 2 < |z|
  | none => False

/-- The `lz` table itself: one row per currency of the full table (the
group keys of `df.groupby("Currency")`). -/
noncomputable def lzTable (obs : List Obs) : List (String × Option ℝ) :=
  (currencies obs).map fun c => (c, lzZScore obs c)

/-! ## Tab 6: model comparison (source lines 137-144) -/

/-- One row of the comparison table `comp` after `fillna(False)`. -/
structure CompRow where
  ccy : String
  flagManual : Prop
  flagStat : Prop
  flagGarch : Prop
  flagIF : Prop
  flagOCSVM : Prop
  flagRegime : Prop

/-- The `Flag_GARCH` cell a currency receives from the left merge with a
NON-EMPTY `garch_df` followed by `fillna(False)`: the flag of its GARCH row
if one exists, else `False`.  (`compTable` consults this only on the
non-crash path where `garch_df` has its columns.) -/
noncomputable def compGarchFlag (fitF : List ℚ → Option ℝ) (obs : List Obs)
    (c : String) : Prop :=
  match (garch_out fitF obs).find? (fun r => r.ccy == c) with
  | some r => r.flagG
  | none => False

/-- The `Flag_IF`/`Flag_OCSVM` cells from the left merge with a `feat` table
that carries its flag columns (`rows` is tab 4's flag output), followed by
`fillna(False)`: a base currency dropped from `feat` by `dropna()` has no row
and fills as `False`. -/
noncomputable def compAnomalyFlags (rows : List (String × Bool × Bool))
    (c : String) : Prop × Prop :=
  match rows.find? (fun r => r.1 == c) with
  | some r => (r.2.1 = true, r.2.2 = true)
  | none => (False, False)

/-- Source lines 139-144: the comparison table starts from `base` (one row per
historical currency) and LEFT-merges the GARCH, anomaly and regime flags onto
it, then fills missing cells with `False`.  Two inputs never produce a table
at all and are modelled as `none`: when `garch_out` is empty,
`pd.DataFrame([])` has no columns and `garch_df[["Currency","Flag_GARCH"]]`
(line 140) raises `KeyError`; and when tab 4 skipped detection (`feat` has
fewer than two rows, `runAnomaly` is `none`), `feat` lacks the
`Flag_IF`/`Flag_OCSVM` columns and line 141 raises `KeyError`.  Every
historical currency is a group key of `lz`, so the regime merge always finds
its row. -/
noncomputable def compTable (fitF : List ℚ → Option ℝ)
    (ifFit : ℕ → List FeatVec → FeatVec → Bool)
    (svmFit : ℚ → List FeatVec → FeatVec → Bool) (ambient : ℕ)
    (obs : List Obs) : Option (List CompRow) :=
  if (garch_out fitF obs).isEmpty then none
  else
    match runAnomaly ifFit svmFit ambient obs with
    | none => none
    | some rows =>
      some ((histCcys obs).map fun c =>
        ⟨c, tab2FlagManual obs c, tab2FlagStat obs c, compGarchFlag fitF obs c,
          (compAnomalyFlags rows c).1, (compAnomalyFlags rows c).2,
          regimeFlag obs c⟩)

/-! ## Tab 7: trade backtesting (source lines 146-162) -/

/-- One row of the trade csv. -/
structure Trade where
  tradeDate : ℤ
  instrument : String
  dealRate : ℚ
  allInMarketRate : ℚ
  deviationPct : ℚ

/-- Source lines 154-155: the static quote-rate table. -/
def rates : List (String × ℚ) :=
  [("INRUSD", 83.5), ("JPYUSD", 145.2), ("EURUSD", 1.07), ("GBPUSD", 1.25),
   ("INRJPY", 0.58), ("EURJPY", 156.0)]

/-- The divisor `rates.get(currency, 1)` of source lines 157-158: the quote
rate when the currency is in the table, else the fallback 1. -/
def rateOr1 (c : String) : ℚ := (rates.lookup c).getD 1

/-- Source lines 157-158: a threshold converted into deviation-percentage
space, `threshold / rates.get(currency, 1)`. -/
noncomputable def thresholdPct (thr : ℝ) (c : String) : ℝ :=
  thr / ((rateOr1 c : ℚ) : ℝ)

/-- Source lines 161-162: a trade's flag, `AbsDev > thresholdPct`. -/
noncomputable def tradeFlag (absDev : ℝ) (pct : ℝ) : Prop := pct < absDev

/-- Source lines 153-161 for one trade: `AbsDev = |DeviationPct|`, the left
merge attaches `ManualPct` only when the instrument matches a base-table
currency, and an unmatched trade's NaN threshold yields no flag. -/
noncomputable def cmpFlagManual (obs : List Obs) (t : Trade) : Prop :=
  t.instrument ∈ histCcys obs ∧
    tradeFlag ((|t.deviationPct| : ℚ) : ℝ)
      (thresholdPct ((manualThreshold obs t.instrument : ℚ) : ℝ) t.instrument)

/-! ## Concrete datasets for the refuted claims -/

/-- Dataset for claim C1: one currency `"USD"` observed daily on days 0..67.
The cutoff is day 60, so the historical window holds the 61 observations of
days 0..60, all with `LogReturn = 0`; the single interesting return `1`
happens on day 67, inside the excluded final week. -/
def exC1 : List Obs :=
  (List.range 68).map fun i =>
    ⟨i, "USD", some (if i = 67 then 1 else 0), 0⟩

/-- Dataset for claim C7.  `"AAA"` is observed daily on days 0..99 with
non-constant, never-null returns, so it clears the GARCH 100-observation gate
and has valid features; `"BBB"` has two historical observations with distinct
returns, giving the second valid feature row tab 4 needs; `"NEW"` appears
only on day 107, after the cutoff (day 100), so it is a group key of the
full-table groupbys (`lz`) but has no row in any historical table.  On this
dataset tab 6 really builds its table: `garch_df` is non-empty and `feat`
carries its flag columns. -/
def exC7 : List Obs :=
  ((List.range 100).map fun i =>
    ⟨i, "AAA", some (if i = 0 then 1 else 0), 1⟩) ++
  [⟨0, "BBB", some 1, 1⟩, ⟨1, "BBB", some 2, 1⟩, ⟨107, "NEW", some 3, 1⟩]

/-- The full-table `LogReturn` column of `"AAA"` in `exC7`, named for reuse in
proofs: a one followed by ninety-nine zeros. -/
def exC7fullAAA : List (Option ℚ) := some 1 :: List.replicate 99 (some 0)

/-! ## Claims C2 and C10: the manual band classifier -/

/-- Claim C2: for every non-negative `AvgAnnVol` the band scan matches exactly
one of the four bands, the classifier returns that band's group and threshold
(first match in increasing order), and any value at or above 0.60 lands in
group 4 with threshold 0.70. -/
theorem c2_manual_band_partition (v : ℝ) (hv : 0 ≤ v) :
    (∃! b : Band, b ∈ MANUAL_BANDS ∧ bandMatch v b = true) ∧
    (∀ b ∈ MANUAL_BANDS, bandMatch v b = true →
      find_group_and_thresh v = (b.group, b.thr)) ∧
    ((0.60 : ℝ) ≤ v → find_group_and_thresh v = (4, 0.70)) := by
  rcases lt_or_le v 0.07 with h1 | h1
  · have hfind : find_group_and_thresh v = (1, 0.07) := by
      simp [find_group_and_thresh, MANUAL_BANDS, List.find?, bandMatch, hv, h1]
    refine ⟨⟨⟨1, 0, some 0.07, 0.07⟩, ⟨by simp [MANUAL_BANDS], ?_⟩, ?_⟩, ?_, ?_⟩
    · simp [bandMatch, hv, h1]
    · rintro b ⟨hb, hm⟩
      fin_cases hb <;> simp_all [bandMatch] <;> linarith
    · rintro b hb hm
      fin_cases hb
      · exact hfind
      all_goals (simp [bandMatch] at hm; linarith)
    · intro h60; linarith
  · have hn1 : ¬ v < (0.07 : ℝ) := not_lt.2 h1
    rcases lt_or_le v 0.50 with h2 | h2
    · have hfind : find_group_and_thresh v = (2, 0.50) := by
        simp [find_group_and_thresh, MANUAL_BANDS, List.find?, bandMatch, hn1, h1, h2]
      refine ⟨⟨⟨2, 0.07, some 0.50, 0.50⟩, ⟨by simp [MANUAL_BANDS], ?_⟩, ?_⟩, ?_, ?_⟩
      · simp [bandMatch, h1, h2]
      · rintro b ⟨hb, hm⟩
        fin_cases hb <;> simp_all [bandMatch] <;> linarith
      · rintro b hb hm
        fin_cases hb
        · simp [bandMatch, hn1] at hm
        · exact hfind
        all_goals (simp [bandMatch] at hm; linarith)
      · intro h60; linarith
    · have hn2 : ¬ v < (0.50 : ℝ) := not_lt.2 h2
      rcases lt_or_le v 0.60 with h3 | h3
      · have hfind : find_group_and_thresh v = (3, 0.60) := by
          simp [find_group_and_thresh, MANUAL_BANDS, List.find?, bandMatch,
            hn1, hn2, h2, h3]
        refine ⟨⟨⟨3, 0.50, some 0.60, 0.60⟩, ⟨by simp [MANUAL_BANDS], ?_⟩, ?_⟩, ?_, ?_⟩
        · simp [bandMatch, h2, h3]
        · rintro b ⟨hb, hm⟩
          fin_cases hb <;> simp_all [bandMatch] <;> linarith
        · rintro b hb hm
          fin_cases hb
          · simp [bandMatch, hn1] at hm
          · simp [bandMatch, hn2] at hm
          · exact hfind
          · simp [bandMatch] at hm; linarith
        · intro h60; linarith
      · have hn3 : ¬ v < (0.60 : ℝ) := not_lt.2 h3
        have hfind : find_group_and_thresh v = (4, 0.70) := by
          simp [find_group_and_thresh, MANUAL_BANDS, List.find?, bandMatch,
            hn1, hn2, hn3, h3]
        refine ⟨⟨⟨4, 0.60, none, 0.70⟩, ⟨by simp [MANUAL_BANDS], ?_⟩, ?_⟩, ?_, ?_⟩
        · simp [bandMatch, h3]
        · rintro b ⟨hb, hm⟩
          fin_cases hb <;> simp_all [bandMatch] <;> linarith
        · rintro b hb hm
          fin_cases hb
          · simp [bandMatch, hn1] at hm
          · simp [bandMatch, hn2] at hm
          · simp [bandMatch, hn3] at hm
          · exact hfind
        · intro _; exact hfind

/-- Witness for C2 at the concrete input 0.3: the hypotheses of
`c2_manual_band_partition` are discharged at `v = 0.3`. -/
theorem c2_manual_band_partition_witness :
    (∃! b : Band, b ∈ MANUAL_BANDS ∧ bandMatch (0.3 : ℝ) b = true) ∧
    (∀ b ∈ MANUAL_BANDS, bandMatch (0.3 : ℝ) b = true →
      find_group_and_thresh (0.3 : ℝ) = (b.group, b.thr)) ∧
    ((0.60 : ℝ) ≤ (0.3 : ℝ) → find_group_and_thresh (0.3 : ℝ) = (4, 0.70)) :=
  c2_manual_band_partition (0.3 : ℝ) (by norm_num)

/-- Claim C10: a negative input matches no band (every lower bound is ≥ 0) and
the fallback clause returns group 4 with threshold 0.70 — not band 1 and not
an error. -/
theorem c10_negative_input_falls_back_to_band4 (v : ℝ) (hv : v < 0) :
    (∀ b ∈ MANUAL_BANDS, bandMatch v b = false) ∧
    find_group_and_thresh v = (4, 0.70) := by
  have h0 : ¬ (0 : ℝ) ≤ v := not_le.2 hv
  have h07 : ¬ (0.07 : ℝ) ≤ v := not_le.2 (by linarith)
  have h50 : ¬ (0.50 : ℝ) ≤ v := not_le.2 (by linarith)
  have h60 : ¬ (0.60 : ℝ) ≤ v := not_le.2 (by linarith)
  have hall : ∀ b ∈ MANUAL_BANDS, bandMatch v b = false := by
    rintro b hb
    fin_cases hb <;> simp [bandMatch, h0, h07, h50, h60]
  refine ⟨hall, ?_⟩
  have hfind : MANUAL_BANDS.find? (bandMatch v) = none := by
    rw [List.find?_eq_none]
    intro b hb
    simp [hall b hb]
  simp [find_group_and_thresh, hfind]

/-- Witness for C10 at the concrete input −1. -/
theorem c10_negative_input_falls_back_to_band4_witness :
    (∀ b ∈ MANUAL_BANDS, bandMatch (-1 : ℝ) b = false) ∧
    find_group_and_thresh (-1 : ℝ) = (4, 0.70) :=
  c10_negative_input_falls_back_to_band4 (-1 : ℝ) (by norm_num)

/-! ## Shared helper lemmas -/

/-- Last element of a map over `List.range n`. -/
theorem getLast?_map_range {α : Type} (f : ℕ → α) (n : ℕ) (hn : n ≠ 0) :
    ((List.range n).map f).getLast? = some (f (n - 1)) := by
  cases n with
  | zero => exact absurd rfl hn
  | succ m => simp [List.range_succ]

/-- Characterization of one emitted GARCH row: present exactly when the
cleaned series is long enough, the fit converges and the full-series rolling
volatility has a defined last entry. -/
theorem garchRowFor_eq_some (fitF : List ℚ → Option ℝ) (obs : List Obs)
    (a : String) (g : GarchRow) :
    garchRowFor fitF obs a = some g ↔
      (100 ≤ (definedVals (histReturns obs a)).length ∧
        ∃ f cv, fitF (definedVals (histReturns obs a)) = some f ∧
          lastFullVol obs a = some cv ∧ g = ⟨a, f, cv, f * 1.5 < cv⟩) := by
  unfold garchRowFor
  by_cases hlen : (definedVals (histReturns obs a)).length < 100
  · rw [if_pos hlen]
    simp [not_le.mpr hlen]
  · rw [if_neg hlen]
    rcases hf : fitF (definedVals (histReturns obs a)) with _ | f <;>
      rcases hv : lastFullVol obs a with _ | cv <;>
        simp [not_lt.1 hlen, eq_comm]

/-! ## Claim C9: determinism of the anomaly detector -/

/-- Claim C9: running the anomaly detector twice on the same upload produces
identical flag tables, whatever the ambient RNG states `r1`, `r2` of the two
runs are: the isolation-forest scorer is seeded with the fixed
`random_state=42` and the one-class SVM consumes no randomness. -/
theorem c9_anomaly_determinism (ifFit : ℕ → List FeatVec → FeatVec → Bool)
    (svmFit : ℚ → List FeatVec → FeatVec → Bool) (obs : List Obs)
    (r1 r2 : ℕ) :
    runAnomaly ifFit svmFit r1 obs = runAnomaly ifFit svmFit r2 obs := rfl

/-! ## Claim C5: trade backtester conversion and flags -/

/-- Claim C5: thresholds are converted into deviation-percentage space by
dividing by the quote rate, with fallback divisor 1 for unmapped currencies;
a trade is flagged exactly when `AbsDev` strictly exceeds the converted
threshold; with `quoteRate[EURUSD] = 1.07` and threshold `0.07` the converted
threshold is `0.07/1.07 ≈ 0.0654`, so `AbsDev = 0.08` flags and
`AbsDev = 0.05` does not. -/
theorem c5_backtest_conversion_and_flags :
    (∀ (thr : ℝ) (c : String), thresholdPct thr c = thr / ((rateOr1 c : ℚ) : ℝ)) ∧
    (∀ (thr : ℝ) (c : String), rates.lookup c = none → thresholdPct thr c = thr) ∧
    (∀ (obs : List Obs) (t : Trade), cmpFlagManual obs t ↔
      t.instrument ∈ histCcys obs ∧
        thresholdPct ((manualThreshold obs t.instrument : ℚ) : ℝ) t.instrument <
          ((|t.deviationPct| : ℚ) : ℝ)) ∧
    tradeFlag (0.08 : ℝ) (thresholdPct (0.07 : ℝ) "EURUSD") ∧
    ¬ tradeFlag (0.05 : ℝ) (thresholdPct (0.07 : ℝ) "EURUSD") := by
  have hrate : rateOr1 "EURUSD" = (1.07 : ℚ) := by
    simp [rateOr1, rates, List.lookup]
  have hc : ((rateOr1 "EURUSD" : ℚ) : ℝ) = (1.07 : ℝ) := by
    rw [hrate]; norm_num
  refine ⟨fun thr c => rfl, ?_, ?_, ?_, ?_⟩
  · intro thr c h
    simp [thresholdPct, rateOr1, h]
  · intro obs t
    simp [cmpFlagManual, tradeFlag]
  · simp only [tradeFlag, thresholdPct, hc]
    norm_num
  · simp only [tradeFlag, thresholdPct, hc, not_lt]
    norm_num

/-! ## Claim C4: GARCH skip behavior -/

/-- Claim C4: a currency appears in the GARCH output exactly when its cleaned
historical return series has at least 100 entries (99 is skipped by the
`continue`), the abstracted fit succeeds, and the full-series rolling
volatility is somewhere defined (otherwise `iloc[-1]` raises and the bare
`except` skips the currency); any fit failure omits only that currency. -/
theorem c4_garch_skip_iff (fitF : List ℚ → Option ℝ) (obs : List Obs)
    (c : String) :
    (∃ g ∈ garch_out fitF obs, g.ccy = c) ↔
      (c ∈ currencies obs ∧ 100 ≤ (definedVals (histReturns obs c)).length ∧
        (∃ f, fitF (definedVals (histReturns obs c)) = some f) ∧
        ∃ v, lastFullVol obs c = some v) := by
  constructor
  · rintro ⟨g, hg, hgc⟩
    rcases List.mem_filterMap.1 hg with ⟨a, ha, hbody⟩
    rcases (garchRowFor_eq_some fitF obs a g).1 hbody with ⟨hlen, f, cv, hf, hv, hge⟩
    have hac : a = c := by rw [hge] at hgc; exact hgc
    subst hac
    exact ⟨ha, hlen, ⟨f, hf⟩, ⟨cv, hv⟩⟩
  · rintro ⟨hc, hlen, ⟨f, hf⟩, ⟨cv, hv⟩⟩
    refine ⟨⟨c, f, cv, f * 1.5 < cv⟩, List.mem_filterMap.2 ⟨c, hc, ?_⟩, rfl⟩
    exact (garchRowFor_eq_some fitF obs c _).2 ⟨hlen, f, cv, hf, hv, rfl⟩

/-- Mapping a total function under `Option.map` commutes with dropping the
`none` cells. -/
theorem definedVals_map_optionMap {α β : Type} (g : α → β) (xs : List (Option α)) :
    definedVals (xs.map (Option.map g)) = (definedVals xs).map g := by
  induction xs with
  | nil => rfl
  | cons x t ih => cases x <;> simp_all [definedVals]

/-- A column of only NaN cells has no defined values. -/
theorem definedVals_const_none {α β : Type} (xs : List (Option α)) :
    definedVals (xs.map fun _ => (none : Option β)) = [] := by
  induction xs with
  | nil => rfl
  | cons x t ih => simp_all [definedVals]

/-! ## Claim C3: rolling volatility -/

/-- Claim C3: positions before index 59 of a currency's rolling-volatility
column are undefined; at any position `i ≥ 59` the window is the trailing 60
entries and, when they are all non-null, the value is `√252` times their
sample standard deviation; a currency with fewer than 60 historical
observations has an entirely undefined column, whose defined part is empty,
so the percentile is NaN and the flag is off — never zero. -/
theorem c3_rolling_volatility (obs : List Obs) (c : String) (p : ℚ) :
    (∀ i, i < 59 → i < (histReturns obs c).length →
      (rollVolList (histReturns obs c))[i]? = some none) ∧
    (∀ i, 59 ≤ i → i < (histReturns obs c).length →
      ((((histReturns obs c).take (i + 1)).drop (i - 59)).length = 60 ∧
        ∀ w, seqOption (((histReturns obs c).take (i + 1)).drop (i - 59)) = some w →
          (rollVolList (histReturns obs c))[i]? =
            some (some (Real.sqrt 252 * Real.sqrt ((sampleVarQ w : ℚ) : ℝ))))) ∧
    ((histReturns obs c).length < 60 →
      (∀ x ∈ rollVolList (histReturns obs c), x = none) ∧
      tab1Thresh obs c p = none ∧ ¬ tab1Flag obs c p) := by
  refine ⟨?_, ?_, ?_⟩
  · intro i h59 hlen
    simp [rollVolList, List.getElem?_map, List.getElem?_range hlen, rollWindow,
      not_le.mpr h59]
  · intro i h59 hlen
    refine ⟨?_, ?_⟩
    · rw [List.length_drop, List.length_take]
      omega
    · intro w hw
      have hv : (rollVolList (histReturns obs c))[i]? = some (some (annVol w)) := by
        simp [rollVolList, List.getElem?_map, List.getElem?_range hlen, rollWindow,
          if_pos h59, hw]
      rw [hv, annVol, ANNUALIZE, mul_comm]
  · intro hlen
    have hall : ∀ x ∈ rollVolList (histReturns obs c), x = none := by
      intro x hx
      rcases List.mem_map.1 hx with ⟨i, hi, rfl⟩
      have hi59 : i < 59 := by have := List.mem_range.1 hi; omega
      simp [rollWindow, not_le.mpr hi59]
    have hdef : definedVals (tab1RollVol obs c) = [] := by
      rw [tab1RollVol]
      exact List.filterMap_eq_nil_iff.2 fun a ha => hall a ha
    have hthresh : tab1Thresh obs c p = none := by
      simp [tab1Thresh, hdef, pandasQuantile]
    refine ⟨hall, hthresh, ?_⟩
    cases hl : tab1LatestVol obs c <;> simp [tab1Flag, hthresh, hl]

/-! ## Claim C6: regime detection -/

/-- Claim C6: the regime flag of a currency is raised exactly when the
z-scores computed over its FULL rolling-volatility history (not merely the
historical window) have a well-defined, non-degenerate standard deviation and
the z-score of the last defined entry exceeds 2 in absolute value; in
particular a (near-)zero-variance history, whose standard deviation is 0 and
whose z-scores are all NaN, never raises the flag. -/
theorem c6_regime_flag_iff (obs : List Obs) (c : String) :
    regimeFlag obs c ↔
      ∃ s, stdR (definedVals (rollVolList (returnsAll obs c))) = some s ∧ s ≠ 0 ∧
        ∃ v, (definedVals (rollVolList (returnsAll obs c))).getLast? = some v ∧
          2 < |(v - meanR (definedVals (rollVolList (returnsAll obs c)))) / s| := by
  rcases hs : stdR (definedVals (rollVolList (returnsAll obs c))) with _ | s
  · have hz : zSeries (rollVolList (returnsAll obs c)) =
        (rollVolList (returnsAll obs c)).map fun _ => none := by
      unfold zSeries; rw [hs]
    have hlz : lzZScore obs c = none := by
      unfold lzZScore
      rw [hz, definedVals_const_none]
      rfl
    simp [regimeFlag, hlz, hs]
  · by_cases hs0 : s = 0
    · have hz : zSeries (rollVolList (returnsAll obs c)) =
          (rollVolList (returnsAll obs c)).map fun _ => none := by
        unfold zSeries; rw [hs]; simp [hs0]
      have hlz : lzZScore obs c = none := by
        unfold lzZScore
        rw [hz, definedVals_const_none]
        rfl
      simp [regimeFlag, hlz, hs, hs0]
    · have hz : zSeries (rollVolList (returnsAll obs c)) =
          (rollVolList (returnsAll obs c)).map (Option.map fun v =>
            (v - meanR (definedVals (rollVolList (returnsAll obs c)))) / s) := by
        unfold zSeries; rw [hs]; simp [hs0]
      have hlz : lzZScore obs c =
          ((definedVals (rollVolList (returnsAll obs c))).getLast?).map fun v =>
            (v - meanR (definedVals (rollVolList (returnsAll obs c)))) / s := by
        unfold lzZScore
        rw [hz, definedVals_map_optionMap, List.getLast?_map]
      rcases hlast : (definedVals (rollVolList (returnsAll obs c))).getLast?
        with _ | v
      · simp [regimeFlag, hlz, hlast, hs]
      · simp [regimeFlag, hlz, hlast, hs, hs0]

/-! ## Claim C8: percentile monotonicity -/

/-- Reading a sorted sample at a larger clamped index never gives a smaller
value. -/
theorem nthClamped_mono {v : List ℝ} (hv : v.Sorted (· ≤ ·)) {i j : ℕ}
    (hij : i ≤ j) : nthClamped v i ≤ nthClamped v j := by
  rcases eq_or_ne v [] with rfl | hne
  · simp [nthClamped]
  · have hlen : 0 < v.length := List.length_pos.2 hne
    have hi : min i (v.length - 1) < v.length := by omega
    have hj : min j (v.length - 1) < v.length := by omega
    rw [nthClamped, nthClamped, List.getD_eq_getElem _ _ hi,
      List.getD_eq_getElem _ _ hj]
    have hle : min i (v.length - 1) ≤ min j (v.length - 1) := by omega
    have h2 := hv.rel_get_of_le
      (Fin.mk_le_mk.2 hle :
        (⟨min i (v.length - 1), hi⟩ : Fin v.length) ≤ ⟨min j (v.length - 1), hj⟩)
    simpa using h2

/-- Linear interpolation between the order statistics of a sorted sample is
monotone in the fractional position. -/
theorem interpAt_mono {v : List ℝ} (hv : v.Sorted (· ≤ ·)) {a b : ℚ}
    (ha : 0 ≤ a) (hab : a ≤ b) : interpAt v a ≤ interpAt v b := by
  have hb : 0 ≤ b := ha.trans hab
  have hfa : (⌊a⌋₊ : ℚ) ≤ a := Nat.floor_le ha
  have hfb : (⌊b⌋₊ : ℚ) ≤ b := Nat.floor_le hb
  have hfa1 : a < ⌊a⌋₊ + 1 := Nat.lt_floor_add_one a
  have hfb1 : b < ⌊b⌋₊ + 1 := Nat.lt_floor_add_one b
  have hj : ⌊a⌋₊ ≤ ⌊b⌋₊ := Nat.floor_le_floor hab
  have hga0 : (0 : ℝ) ≤ ((a - (⌊a⌋₊ : ℚ) : ℚ) : ℝ) := by
    exact_mod_cast sub_nonneg.2 hfa
  have hga1 : ((a - (⌊a⌋₊ : ℚ) : ℚ) : ℝ) < 1 := by
    exact_mod_cast (by linarith : a - (⌊a⌋₊ : ℚ) < 1)
  have hgb0 : (0 : ℝ) ≤ ((b - (⌊b⌋₊ : ℚ) : ℚ) : ℝ) := by
    exact_mod_cast sub_nonneg.2 hfb
  have hNa : nthClamped v ⌊a⌋₊ ≤ nthClamped v (⌊a⌋₊ + 1) :=
    nthClamped_mono hv (Nat.le_succ _)
  have hNb : nthClamped v ⌊b⌋₊ ≤ nthClamped v (⌊b⌋₊ + 1) :=
    nthClamped_mono hv (Nat.le_succ _)
  rcases eq_or_lt_of_le hj with he | hlt
  · rw [interpAt, interpAt, ← he]
    have hgab : ((a - (⌊a⌋₊ : ℚ) : ℚ) : ℝ) ≤ ((b - (⌊a⌋₊ : ℚ) : ℚ) : ℝ) := by
      exact_mod_cast (by linarith : a - (⌊a⌋₊ : ℚ) ≤ b - (⌊a⌋₊ : ℚ))
    have hprod := mul_le_mul_of_nonneg_right hgab
      (sub_nonneg.2 hNa)
    linarith
  · have step1 : interpAt v a ≤ nthClamped v (⌊a⌋₊ + 1) := by
      rw [interpAt]
      have := mul_nonneg (by linarith : (0 : ℝ) ≤ 1 - ((a - (⌊a⌋₊ : ℚ) : ℚ) : ℝ))
        (sub_nonneg.2 hNa)
      nlinarith
    have step2 : nthClamped v (⌊a⌋₊ + 1) ≤ nthClamped v ⌊b⌋₊ :=
      nthClamped_mono hv (by omega)
    have step3 : nthClamped v ⌊b⌋₊ ≤ interpAt v b := by
      rw [interpAt]
      have := mul_nonneg hgb0 (sub_nonneg.2 hNb)
      linarith
    linarith

/-- Claim C8: for one currency, window and rolling-volatility history, the
statistical threshold is monotone in the percentile: `p ≤ q` within the
configurable range `[90, 99]` never decreases the computed threshold (two
undefined thresholds — an empty historical sample — compare as equal). -/
theorem c8_percentile_monotone (obs : List Obs) (c : String) (p q : ℚ)
    (hp : 90 ≤ p) (hpq : p ≤ q) (_hq : q ≤ 99) :
    optionLE (tab1Thresh obs c p) (tab1Thresh obs c q) := by
  unfold tab1Thresh pandasQuantile
  by_cases he : (definedVals (tab1RollVol obs c)).isEmpty = true
  · simp [he, optionLE]
  · simp only [he, if_false, Bool.false_eq_true]
    have hsorted : (sortR (definedVals (tab1RollVol obs c))).Sorted (· ≤ ·) :=
      List.sorted_insertionSort _ _
    have hp0 : (0 : ℚ) ≤ ((definedVals (tab1RollVol obs c)).length - 1 : ℕ) * (p / 100) := by
      have : (0 : ℚ) ≤ p / 100 := by positivity
      positivity
    have hmono : ((definedVals (tab1RollVol obs c)).length - 1 : ℕ) * (p / 100) ≤
        ((definedVals (tab1RollVol obs c)).length - 1 : ℕ) * (q / 100) := by
      gcongr
    exact interpAt_mono hsorted hp0 hmono

/-- Witness for C8 at the concrete input `p = 90`, `q = 99` on the empty
upload. -/
theorem c8_percentile_monotone_witness :
    optionLE (tab1Thresh [] "X" 90) (tab1Thresh [] "X" 99) :=
  c8_percentile_monotone [] "X" 90 99 (by norm_num) (by norm_num) (by norm_num)

/-! ## Claim C1: where the comparison value comes from -/

/-- The last entry of a rolling-volatility column is the annualized deviation
of the trailing window ending at the last index. -/
theorem latestVol_formula (xs : List (Option ℚ)) (n : ℕ) (hn : xs.length = n + 1) :
    ((rollVolList xs).getLast?).join = (rollWindow xs n).map annVol := by
  unfold rollVolList
  rw [hn, getLast?_map_range _ (n + 1) (Nat.succ_ne_zero n)]
  simp

/-- Sample variance of a constant-zero window. -/
theorem sampleVarQ_replicate_zero (n : ℕ) :
    sampleVarQ (List.replicate n (0 : ℚ)) = 0 := by
  unfold sampleVarQ meanQ
  simp

/-- Sample variance of fifty-nine zeros followed by a one. -/
theorem sampleVarQ_59zeros_one :
    sampleVarQ (List.replicate 59 (0 : ℚ) ++ [1]) = 1 / 60 := by
  unfold sampleVarQ meanQ
  norm_num [List.map_append, List.sum_append, List.map_replicate,
    List.sum_replicate]

set_option maxRecDepth 20000 in
/-- Counterexample to claim C1 as stated: on the dataset `exC1` the code's
`LatestVol` (computed from the HISTORICAL window only, source lines 53-62) is
0, while the most recent rolling-volatility value of the FULL series — the
value the claim says is used for the comparison — is strictly positive, so
the two differ. -/
theorem c1_counterexample :
    tab1LatestVol exC1 "USD" = some 0 ∧
    specFullSeriesLatestVol exC1 "USD" ≠ some 0 ∧
    tab1LatestVol exC1 "USD" ≠ specFullSeriesLatestVol exC1 "USD" := by
  have hhist : histReturns exC1 "USD" = List.replicate 61 (some (0 : ℚ)) := by
    decide
  have hfull : returnsAll exC1 "USD" =
      List.replicate 67 (some (0 : ℚ)) ++ [some 1] := by decide
  have hw1 : rollWindow (List.replicate 61 (some (0 : ℚ))) 60 =
      some (List.replicate 60 (0 : ℚ)) := by decide
  have hw2 : rollWindow (List.replicate 67 (some (0 : ℚ)) ++ [some 1]) 67 =
      some (List.replicate 59 (0 : ℚ) ++ [1]) := by decide
  have hlenh : (histReturns exC1 "USD").length = 60 + 1 := by rw [hhist]; rfl
  have hlenf : (returnsAll exC1 "USD").length = 67 + 1 := by rw [hfull]; rfl
  have h1 : tab1LatestVol exC1 "USD" = some 0 := by
    unfold tab1LatestVol tab1RollVol
    rw [latestVol_formula _ 60 hlenh, hhist, hw1]
    simp only [Option.map_some']
    rw [annVol, sampleVarQ_replicate_zero]
    norm_num
  have h2eq : specFullSeriesLatestVol exC1 "USD" =
      some (annVol (List.replicate 59 (0 : ℚ) ++ [1])) := by
    unfold specFullSeriesLatestVol
    rw [latestVol_formula _ 67 hlenf, hfull, hw2]
    simp only [Option.map_some']
  have hpos : 0 < annVol (List.replicate 59 (0 : ℚ) ++ [1]) := by
    rw [annVol, sampleVarQ_59zeros_one, ANNUALIZE]
    apply mul_pos
    · exact Real.sqrt_pos.2 (by exact_mod_cast (by norm_num : (0 : ℚ) < 1 / 60))
    · exact Real.sqrt_pos.2 (by norm_num)
  have h2 : specFullSeriesLatestVol exC1 "USD" ≠ some 0 := by
    rw [h2eq]
    intro hcontra
    rw [Option.some.injEq] at hcontra
    rw [hcontra] at hpos
    exact lt_irrefl 0 hpos
  exact ⟨h1, h2, by rw [h1]; exact fun hc => h2 hc.symm⟩

/-- Claim C1 (amended): the comparison value `LatestVol` is the most recent
rolling-volatility entry of the HISTORICAL-window series (the last entry of
the rolling column computed from observations dated on or before the 7-day
cutoff), not of the full series; the statistical flag holds exactly when that
latest value and the percentile threshold are both defined and the latest
value strictly exceeds the threshold. -/
theorem c1_amended_latest_is_historical (obs : List Obs) (c : String) (p : ℚ) :
    (∀ n, (histReturns obs c).length = n + 1 →
      tab1LatestVol obs c = (rollWindow (histReturns obs c) n).map annVol) ∧
    ((histReturns obs c).length = 0 → tab1LatestVol obs c = none) ∧
    (tab1Flag obs c p ↔ ∃ v t, tab1LatestVol obs c = some v ∧
      tab1Thresh obs c p = some t ∧ t < v) := by
  refine ⟨?_, ?_, ?_⟩
  · intro n hn
    unfold tab1LatestVol tab1RollVol
    exact latestVol_formula _ n hn
  · intro hn
    unfold tab1LatestVol tab1RollVol
    unfold rollVolList
    rw [hn]
    simp
  · cases hl : tab1LatestVol obs c <;> cases ht : tab1Thresh obs c p <;>
      simp [tab1Flag, hl, ht]

/-! ## Claim C7: comparison table membership and fill policy -/

/-- The currency of an emitted GARCH row is the currency it was computed
for. -/
theorem garchRowFor_ccy (fitF : List ℚ → Option ℝ) (obs : List Obs)
    (a : String) (g : GarchRow) (hg : garchRowFor fitF obs a = some g) :
    g.ccy = a := by
  rcases (garchRowFor_eq_some fitF obs a g).1 hg with ⟨-, f, cv, -, -, rfl⟩
  rfl

/-- Keys read back from a filterMap that stores its key form a sublist of the
scanned keys. -/
theorem filterMap_key_sublist {α β : Type} (k : β → α) (h : α → Option β)
    (hk : ∀ a b, h a = some b → k b = a) (l : List α) :
    ((l.filterMap h).map k).Sublist l := by
  induction l with
  | nil => simp
  | cons a t ih =>
    rw [List.filterMap_cons]
    cases hb : h a with
    | none => exact ih.cons a
    | some b =>
      rw [List.map_cons, hk a b hb]
      exact ih.cons₂ a

/-- The GARCH output holds at most one row per currency, because the loop
runs over the deduplicated `currencies` list. -/
theorem garch_ccys_nodup (fitF : List ℚ → Option ℝ) (obs : List Obs) :
    ((garch_out fitF obs).map GarchRow.ccy).Nodup := by
  have hsub := filterMap_key_sublist GarchRow.ccy (garchRowFor fitF obs)
    (garchRowFor_ccy fitF obs) (currencies obs)
  exact (List.nodup_dedup _).sublist hsub

/-- The `Flag_GARCH` cell of a currency in the comparison table is raised
exactly when the GARCH output holds a row for that currency whose flag is
raised — absence fills as `False`. -/
theorem compGarchFlag_iff (fitF : List ℚ → Option ℝ) (obs : List Obs)
    (c : String) :
    compGarchFlag fitF obs c ↔
      ∃ g ∈ garch_out fitF obs, g.ccy = c ∧ g.flagG := by
  unfold compGarchFlag
  rcases hf : (garch_out fitF obs).find? (fun r => r.ccy == c) with _ | r
  · simp only [hf]
    constructor
    · exact False.elim
    · rintro ⟨g, hg, hgc, -⟩
      have hno := List.find?_eq_none.1 hf g hg
      exact absurd (by simp [hgc]) hno
  · have hrc : r.ccy = c := by simpa using List.find?_some hf
    have hm : r ∈ garch_out fitF obs := List.mem_of_find?_eq_some hf
    simp only [hf]
    constructor
    · intro hflag
      exact ⟨r, hm, hrc, hflag⟩
    · rintro ⟨g, hg, hgc, hgf⟩
      have hge : g = r :=
        List.inj_on_of_nodup_map (garch_ccys_nodup fitF obs) hg hm
          (by rw [hgc, hrc])
      rw [← hge]
      exact hgf

/-- A currency with a GARCH row has historical observations, hence a row in
the base table. -/
theorem garch_mem_histCcys (fitF : List ℚ → Option ℝ) (obs : List Obs)
    (g : GarchRow) (hg : g ∈ garch_out fitF obs) : g.ccy ∈ histCcys obs := by
  rcases List.mem_filterMap.1 hg with ⟨a, ha, hbody⟩
  have hccy : g.ccy = a := garchRowFor_ccy fitF obs a g hbody
  rcases (garchRowFor_eq_some fitF obs a g).1 hbody with ⟨hlen, -⟩
  have hne : histReturns obs a ≠ [] := by
    intro hempty
    rw [hempty] at hlen
    simp [definedVals] at hlen
  unfold histReturns at hne
  have hfil : (histObs obs).filter (fun o => o.ccy = a) ≠ [] := by
    intro hcontra
    rw [hcontra] at hne
    exact hne rfl
  rcases List.exists_mem_of_ne_nil _ hfil with ⟨o, ho⟩
  rcases List.mem_filter.1 ho with ⟨hmem, hpred⟩
  have hoc : o.ccy = a := by simpa using hpred
  rw [hccy, ← hoc]
  unfold histCcys
  exact List.mem_dedup.2 (List.mem_map_of_mem _ hmem)

/-- Mapping a total function under the `Option.map` of a partial projection
commutes with dropping the `none` results. -/
theorem filterMap_id_map_optionMap {α β γ : Type} (f : α → Option β) (g : β → γ)
    (l : List α) :
    (l.map fun a => (f a).map g).filterMap id = (l.filterMap f).map g := by
  induction l with
  | nil => rfl
  | cons a t ih =>
    cases hfa : f a <;> simp [List.filterMap_cons, hfa, ih]

/-- The defined entries of a rolling-volatility column are the annualized
deviations of the defined windows, in order; which windows are defined is a
purely rational question. -/
theorem definedVals_rollVolList (xs : List (Option ℚ)) :
    definedVals (rollVolList xs) =
      ((List.range xs.length).filterMap (rollWindow xs)).map annVol := by
  unfold definedVals rollVolList
  exact filterMap_id_map_optionMap _ _ _

/-- Shape of a comparison table that tab 6 actually builds: the GARCH output
is non-empty, tab 4 produced its flag rows, and the table has one row per
historical currency. -/
theorem compTable_some_shape (fitF : List ℚ → Option ℝ)
    (ifFit : ℕ → List FeatVec → FeatVec → Bool)
    (svmFit : ℚ → List FeatVec → FeatVec → Bool) (ambient : ℕ)
    (obs : List Obs) (tbl : List CompRow)
    (h : compTable fitF ifFit svmFit ambient obs = some tbl) :
    ∃ rows, runAnomaly ifFit svmFit ambient obs = some rows ∧
      tbl = (histCcys obs).map fun c =>
        ⟨c, tab2FlagManual obs c, tab2FlagStat obs c, compGarchFlag fitF obs c,
          (compAnomalyFlags rows c).1, (compAnomalyFlags rows c).2,
          regimeFlag obs c⟩ := by
  unfold compTable at h
  by_cases hg : (garch_out fitF obs).isEmpty = true
  · rw [if_pos hg] at h
    exact absurd h (by simp)
  · rw [if_neg hg] at h
    rcases ha : runAnomaly ifFit svmFit ambient obs with _ | rows
    · rw [ha] at h
      have hnone : (none : Option (List CompRow)) = some tbl := h
      exact absurd hnone (by simp)
    · refine ⟨rows, rfl, ?_⟩
      rw [ha] at h
      have hsome : some ((histCcys obs).map fun c =>
          (⟨c, tab2FlagManual obs c, tab2FlagStat obs c, compGarchFlag fitF obs c,
            (compAnomalyFlags rows c).1, (compAnomalyFlags rows c).2,
            regimeFlag obs c⟩ : CompRow)) = some tbl := h
      exact (Option.some.inj hsome).symm

/-- When tab 6 builds its table, the table's currencies are exactly the
historical-base currencies. -/
theorem compTable_ccys (fitF : List ℚ → Option ℝ)
    (ifFit : ℕ → List FeatVec → FeatVec → Bool)
    (svmFit : ℚ → List FeatVec → FeatVec → Bool) (ambient : ℕ)
    (obs : List Obs) (tbl : List CompRow)
    (h : compTable fitF ifFit svmFit ambient obs = some tbl) :
    tbl.map CompRow.ccy = histCcys obs := by
  rcases compTable_some_shape fitF ifFit svmFit ambient obs tbl h with ⟨rows, -, rfl⟩
  rw [List.map_map]
  have hid : (CompRow.ccy ∘ fun c =>
      (⟨c, tab2FlagManual obs c, tab2FlagStat obs c, compGarchFlag fitF obs c,
        (compAnomalyFlags rows c).1, (compAnomalyFlags rows c).2,
        regimeFlag obs c⟩ : CompRow)) = id := rfl
  rw [hid, List.map_id]

/-- Second central moment of a one followed by ninety-nine zeros. -/
theorem centralMomentQ_one_heading_99_zeros :
    centralMomentQ 2 ((1 : ℚ) :: List.replicate 99 0) = 99 / 10000 := by
  unfold centralMomentQ meanQ
  norm_num [List.map_cons, List.map_replicate, List.sum_cons, List.sum_replicate]

/-- Second central moment of the pair `[1, 2]`. -/
theorem centralMomentQ_one_two : centralMomentQ 2 [(1 : ℚ), 2] = 1 / 4 := by
  unfold centralMomentQ meanQ
  norm_num

set_option maxRecDepth 80000 in
/-- Counterexample to claim C7 as stated: on the dataset `exC7` tab 6 really
builds its table (the GARCH output holds the `"AAA"` row, tab 4 has two
feature rows), and the currency `"NEW"` is present in the regime model's
output `lz` (a full-table groupby) but absent from the comparison table,
because the comparison table is built by LEFT-merging onto the historical
base table, not by an outer join. -/
theorem c7_counterexample :
    ("NEW" ∈ (lzTable exC7).map Prod.fst) ∧
    ∃ tbl, compTable (fun _ => some 0) (fun _ _ _ => false) (fun _ _ _ => false)
        0 exC7 = some tbl ∧
      tbl.map CompRow.ccy = ["AAA", "BBB"] ∧ "NEW" ∉ tbl.map CompRow.ccy := by
  have hcur : currencies exC7 = ["AAA", "BBB", "NEW"] := by decide
  have hhist : histCcys exC7 = ["AAA", "BBB"] := by decide
  have hfullA : returnsAll exC7 "AAA" = exC7fullAAA := by decide
  have hlenA : 100 ≤ (definedVals (histReturns exC7 "AAA")).length := by decide
  have hwins : ((List.range exC7fullAAA.length).filterMap
      (rollWindow exC7fullAAA)).getLast? = some (List.replicate 60 (0 : ℚ)) := by
    decide
  have hlastA : lastFullVol exC7 "AAA" =
      some (annVol (List.replicate 60 (0 : ℚ))) := by
    unfold lastFullVol
    rw [definedVals_rollVolList, hfullA, List.getLast?_map, hwins]
    rfl
  have hgA : garchRowFor (fun _ => some 0) exC7 "AAA" =
      some ⟨"AAA", 0, annVol (List.replicate 60 (0 : ℚ)),
        (0 : ℝ) * 1.5 < annVol (List.replicate 60 (0 : ℚ))⟩ :=
    (garchRowFor_eq_some _ _ _ _).2
      ⟨hlenA, 0, annVol (List.replicate 60 (0 : ℚ)), rfl, hlastA, rfl⟩
  have hgB : garchRowFor (fun _ => some 0) exC7 "BBB" = none := by
    unfold garchRowFor
    rw [if_pos (by decide)]
  have hgN : garchRowFor (fun _ => some 0) exC7 "NEW" = none := by
    unfold garchRowFor
    rw [if_pos (by decide)]
  have hgarch : garch_out (fun _ => some 0) exC7 =
      [⟨"AAA", 0, annVol (List.replicate 60 (0 : ℚ)),
        (0 : ℝ) * 1.5 < annVol (List.replicate 60 (0 : ℚ))⟩] := by
    unfold garch_out
    rw [hcur]
    simp [List.filterMap_cons, hgA, hgB, hgN]
  have hvalsA : definedVals (histReturns exC7 "AAA") =
      (1 : ℚ) :: List.replicate 99 0 := by decide
  have hvalsB : definedVals (histReturns exC7 "BBB") = [(1 : ℚ), 2] := by decide
  have hcondA : ((histReturns exC7 "AAA").all Option.isSome) ∧
      2 ≤ (definedVals (histReturns exC7 "AAA")).length ∧
      centralMomentQ 2 (definedVals (histReturns exC7 "AAA")) ≠ 0 := by
    refine ⟨by decide, by decide, ?_⟩
    rw [hvalsA, centralMomentQ_one_heading_99_zeros]
    norm_num
  have hcondB : ((histReturns exC7 "BBB").all Option.isSome) ∧
      2 ≤ (definedVals (histReturns exC7 "BBB")).length ∧
      centralMomentQ 2 (definedVals (histReturns exC7 "BBB")) ≠ 0 := by
    refine ⟨by decide, by decide, ?_⟩
    rw [hvalsB, centralMomentQ_one_two]
    norm_num
  have hfA : (featRow (histReturns exC7 "AAA")).isSome = true := by
    unfold featRow
    rw [if_pos hcondA]
    rfl
  have hfB : (featRow (histReturns exC7 "BBB")).isSome = true := by
    unfold featRow
    rw [if_pos hcondB]
    rfl
  rcases Option.isSome_iff_exists.1 hfA with ⟨vA, hA⟩
  rcases Option.isSome_iff_exists.1 hfB with ⟨vB, hB⟩
  have hft : featTable exC7 = [("AAA", vA), ("BBB", vB)] := by
    unfold featTable
    rw [hhist]
    simp [List.filterMap_cons, hA, hB]
  have hanom : runAnomaly (fun _ _ _ => false) (fun _ _ _ => false) 0 exC7 =
      some (([("AAA", vA), ("BBB", vB)] : List (String × FeatVec)).map fun cv =>
        (cv.1, false, false)) := by
    unfold runAnomaly
    rw [hft]
    rfl
  have hcomp : compTable (fun _ => some 0) (fun _ _ _ => false)
      (fun _ _ _ => false) 0 exC7 =
      some ((histCcys exC7).map fun c =>
        ⟨c, tab2FlagManual exC7 c, tab2FlagStat exC7 c,
          compGarchFlag (fun _ => some 0) exC7 c,
          (compAnomalyFlags (([("AAA", vA), ("BBB", vB)] :
            List (String × FeatVec)).map fun cv => (cv.1, false, false)) c).1,
          (compAnomalyFlags (([("AAA", vA), ("BBB", vB)] :
            List (String × FeatVec)).map fun cv => (cv.1, false, false)) c).2,
          regimeFlag exC7 c⟩) := by
    unfold compTable
    rw [hgarch, hanom]
    rfl
  refine ⟨by simp [lzTable, hcur], ?_⟩
  have hccys := compTable_ccys (fun _ => some 0) (fun _ _ _ => false)
    (fun _ _ _ => false) 0 exC7 _ hcomp
  refine ⟨_, hcomp, ?_, ?_⟩
  · rw [hccys, hhist]
  · rw [hccys, hhist]
    decide

/-- Claim C7 (amended): when tab 6 builds its table at all, the table's
currencies are exactly the currencies of the historical base table (a LEFT
merge, so a currency present only in a full-table model output, such as the
regime table, is omitted), and within the table `Flag_GARCH` is raised
exactly when the GARCH output holds a raised flag for that currency — a
missing GARCH row fills as `False`, never as a missing value.  No table is
built when the GARCH output is empty or when tab 4 skipped detection: those
inputs raise `KeyError` at the merges of lines 140-141. -/
theorem c7_amended_left_join (fitF : List ℚ → Option ℝ)
    (ifFit : ℕ → List FeatVec → FeatVec → Bool)
    (svmFit : ℚ → List FeatVec → FeatVec → Bool) (ambient : ℕ)
    (obs : List Obs) :
    (∀ tbl, compTable fitF ifFit svmFit ambient obs = some tbl →
      tbl.map CompRow.ccy = histCcys obs) ∧
    (∀ tbl c, compTable fitF ifFit svmFit ambient obs = some tbl →
      ((∃ r ∈ tbl, r.ccy = c ∧ r.flagGarch) ↔
        ∃ g ∈ garch_out fitF obs, g.ccy = c ∧ g.flagG)) ∧
    ((garch_out fitF obs).isEmpty = true →
      compTable fitF ifFit svmFit ambient obs = none) ∧
    (runAnomaly ifFit svmFit ambient obs = none →
      compTable fitF ifFit svmFit ambient obs = none) := by
  refine ⟨fun tbl h => compTable_ccys fitF ifFit svmFit ambient obs tbl h,
    ?_, ?_, ?_⟩
  · intro tbl c h
    rcases compTable_some_shape fitF ifFit svmFit ambient obs tbl h
      with ⟨rows, -, rfl⟩
    have hL : (∃ r ∈ (histCcys obs).map fun c =>
        (⟨c, tab2FlagManual obs c, tab2FlagStat obs c, compGarchFlag fitF obs c,
          (compAnomalyFlags rows c).1, (compAnomalyFlags rows c).2,
          regimeFlag obs c⟩ : CompRow), r.ccy = c ∧ r.flagGarch) ↔
        (c ∈ histCcys obs ∧ compGarchFlag fitF obs c) := by
      constructor
      · rintro ⟨r, hr, hrc, hflag⟩
        rcases List.mem_map.1 hr with ⟨a, ha, rfl⟩
        have hac : a = c := hrc
        subst hac
        exact ⟨ha, hflag⟩
      · rintro ⟨hc, hflag⟩
        exact ⟨_, List.mem_map_of_mem _ hc, rfl, hflag⟩
    rw [hL, compGarchFlag_iff]
    constructor
    · rintro ⟨-, h2⟩
      exact h2
    · intro h2
      refine ⟨?_, h2⟩
      rcases h2 with ⟨g, hg, hgc, -⟩
      rw [← hgc]
      exact garch_mem_histCcys fitF obs g hg
  · intro hg
    unfold compTable
    rw [if_pos hg]
  · intro ha
    unfold compTable
    by_cases hg : (garch_out fitF obs).isEmpty = true
    · rw [if_pos hg]
    · rw [if_neg hg, ha]
